import Mathlib

/-!
Verification development for the Legg.io teleprompter application.

The embedding below follows the two source files of the repository:
the App component (script store: create, update, rename, delete, select,
persistence with load-time migration) and the Prompter component
(playback controller with auto-pause, audio activity monitor,
background media manager, recorder), plus the Editor component
(title input with maxLength 50).

Modelling conventions:
- crypto.randomUUID is modelled as a fresh-counter id supply (ids are
  natural numbers, a nextId counter guarantees freshness), matching its
  uniqueness guarantee; the spec itself treats ids as opaque.
- Date.now() timestamps are integers (milliseconds), passed in as
  explicit arguments to each operation.
- JavaScript numbers appearing in the scroll arithmetic are modelled as
  rationals. The UI restricts scrollSpeed to multiples of 0.5 in [0, 20],
  so every value the accumulator takes is a small multiple of 0.25 and
  double-precision float arithmetic on them is exact; the rational model
  is therefore faithful on every reachable input.
- React setState calls are modelled as pure state transformers applied in
  program order.
-/

set_option maxRecDepth 16384

namespace Leggio

/-- A saved script, as in SavedScript of types.ts:
id, title, content, lastModified. -/
structure SavedScript where
  id : Nat
  title : String
  content : String
  lastModified : Int
deriving Repr, DecidableEq

/-- State owned by the App component: the script list, the active script
id, plus the fresh-id counter modelling crypto.randomUUID. -/
structure AppState where
  scripts : List SavedScript
  activeScriptId : Nat
  nextId : Nat
deriving Repr, DecidableEq

/-- MAX_SCRIPTS constant of the App component. -/
def MAX_SCRIPTS : Nat := 10

/-- handleUpdateScript: replace the content of the script whose id equals
activeScriptId and bump its lastModified; all other scripts unchanged. -/
def handleUpdateScript (st : AppState) (now : Int) (content : String) : AppState :=
  { st with scripts := st.scripts.map fun s =>
      if s.id = st.activeScriptId then { s with content := content, lastModified := now } else s }

/-- handleRenameScript: replace the title of the script whose id equals
activeScriptId and bump its lastModified; all other scripts unchanged.
The handler itself performs no truncation. -/
def handleRenameScript (st : AppState) (now : Int) (title : String) : AppState :=
  { st with scripts := st.scripts.map fun s =>
      if s.id = st.activeScriptId then { s with title := title, lastModified := now } else s }

/-- The title input of the Editor component carries maxLength 50: text
entered through the UI is cut off at 50 characters before it reaches
handleRenameScript. -/
def titleInputBoundary (t : String) : String := t.take 50

/-- handleCreateScript: no-op at capacity MAX_SCRIPTS; otherwise prepend a
new blank script with a fresh id and make it active. -/
def handleCreateScript (st : AppState) (now : Int) : AppState :=
  if st.scripts.length ≥ MAX_SCRIPTS then st
  else
    let newScript : SavedScript :=
      { id := st.nextId, title := "New Script", content := "", lastModified := now }
    { scripts := newScript :: st.scripts
      activeScriptId := newScript.id
      nextId := st.nextId + 1 }

/-- Placeholder script used to read the head of a list that the original
JavaScript indexes unconditionally (newScripts[0]); under the store
invariant that read never happens on an empty list. -/
def dummyScript : SavedScript :=
  { id := 0, title := "", content := "", lastModified := 0 }

/-- handleDeleteScript: with at most one script left it clears the active
script in place (content empty, title Untitled Script) through
handleUpdateScript and handleRenameScript; otherwise it removes every
entry with the given id and, when the deleted id was active, makes the
first remaining script active. -/
def handleDeleteScript (st : AppState) (now : Int) (id : Nat) : AppState :=
  if st.scripts.length ≤ 1 then
    handleRenameScript (handleUpdateScript st now "") now "Untitled Script"
  else
    let newScripts := st.scripts.filter fun s => s.id ≠ id
    if id = st.activeScriptId then
      { st with scripts := newScripts, activeScriptId := (newScripts.headD dummyScript).id }
    else
      { st with scripts := newScripts }

/-- setActiveScriptId as exposed to the Editor (select); the handler does
not validate that the id exists. -/
def handleSelectScript (st : AppState) (id : Nat) : AppState :=
  { st with activeScriptId := id }

/-- The default script collection created when nothing is in storage. -/
def initialAppState : AppState :=
  { scripts := [{ id := 0, title := "Welcome to Legg.io", content := "", lastModified := 0 }]
    activeScriptId := 0
    nextId := 1 }

/-- User-driven store events: the five operations of the Script Store. -/
inductive StoreEvent where
  | create (now : Int)
  | update (now : Int) (content : String)
  | rename (now : Int) (title : String)
  | delete (now : Int) (id : Nat)
  | select (id : Nat)
deriving Repr, DecidableEq

/-- One store event applied to the App state. -/
def storeStep (st : AppState) (e : StoreEvent) : AppState :=
  match e with
  | .create now => handleCreateScript st now
  | .update now content => handleUpdateScript st now content
  | .rename now title => handleRenameScript st now title
  | .delete now id => handleDeleteScript st now id
  | .select id => handleSelectScript st id

/-- The state reached from the initial state by a sequence of store events. -/
def storeRun (es : List StoreEvent) : AppState :=
  es.foldl storeStep initialAppState

/-! Persistence: the store is serialized as a JSON array under a fixed
storage key and reloaded through a migration at startup. -/

/-- A script record as read back from storage. JSON.stringify of a
SavedScript always emits the title field, but records written by older
versions of the app may lack it; title is therefore optional here. -/
structure StoredScript where
  id : Nat
  title : Option String
  content : String
  lastModified : Int
deriving Repr, DecidableEq

/-- Serialization of one script: JSON.stringify keeps every field,
including an empty title string. -/
def serializeScript (s : SavedScript) : StoredScript :=
  { id := s.id, title := some s.title, content := s.content, lastModified := s.lastModified }

/-- JavaScript truthiness of the stored title as tested by the migration
expression s.title || ...: an absent title and an empty-string title are
both falsy. -/
def titleFalsy : Option String → Bool
  | none => true
  | some t => t.isEmpty

/-- The backfill value of the migration: first line of content cut to 30
characters when content is nonempty (truthy), otherwise the literal
Untitled Script. -/
def backfillTitle (content : String) : String :=
  if content.isEmpty then "Untitled Script"
  else ((content.splitOn "\n").headD "").take 30

/-- Load-time migration of one stored record, following
s.title || (s.content ? s.content.split(newline)[0].substring(0,30)
: fallback). -/
def migrateScript (r : StoredScript) : SavedScript :=
  { id := r.id
    title := if titleFalsy r.title then backfillTitle r.content else r.title.getD ""
    content := r.content
    lastModified := r.lastModified }

/-- Persisting a collection then reloading it through the migration. -/
def storageRoundTrip (scripts : List SavedScript) : List SavedScript :=
  (scripts.map serializeScript).map migrateScript

/-! State of the Prompter component: playback controller, audio activity
monitor, background media manager and recorder flags. Fields keep the
names of the corresponding useState and useRef cells. -/

/-- Runtime state of the Prompter component. micPermission is the
tri-state useState (null, true or false); hasRecorder models
mediaRecorderRef.current being non-null; isCameraOn and isScreenShareOn
are the two background source flags. -/
structure PrompterState where
  isPlaying : Bool
  isAutoPaused : Bool
  micPermission : Option Bool
  lastNoiseTime : Int
  currentVolume : ℚ
  scrollAccumulator : ℚ
  scrollTop : ℚ
  scrollSpeed : ℚ
  silenceThresholdSeconds : ℚ
  isRecording : Bool
  hasRecorder : Bool
  isCameraOn : Bool
  isScreenShareOn : Bool
deriving Repr, DecidableEq

/-- State of the Prompter on mount: not playing, not auto-paused,
permission unknown, lastNoiseTime stamped at mount time t0, speed 2,
silence threshold 2 seconds, no recording, no background source. -/
def initialPrompterState (t0 : Int) : PrompterState :=
  { isPlaying := false
    isAutoPaused := false
    micPermission := none
    lastNoiseTime := t0
    currentVolume := 0
    scrollAccumulator := 0
    scrollTop := 0
    scrollSpeed := 2
    silenceThresholdSeconds := 2
    isRecording := false
    hasRecorder := false
    isCameraOn := false
    isScreenShareOn := false }

/-- One pass of the animate callback at time now, with the scroll
container mounted (the source skips the whole body when its container
ref is empty, and the prompter view keeps it mounted). When playing,
compare the time since the last noise against silenceThresholdSeconds
times 1000; on silence set isAutoPaused, otherwise clear it, add
scrollSpeed times 0.5 to the accumulator and, once the accumulator
reaches 1, scroll by its floor and keep the remainder. The progress-bar
update touches no modeled state. -/
def animateFrame (now : Int) (st : PrompterState) : PrompterState :=
  if st.isPlaying then
    let timeSinceNoise : Int := now - st.lastNoiseTime
    let silenceLimitMs : ℚ := st.silenceThresholdSeconds * 1000
    if st.micPermission = some true ∧ silenceLimitMs < (timeSinceNoise : ℚ) then
      { st with isAutoPaused := true }
    else
      let acc := st.scrollAccumulator + st.scrollSpeed * (0.5 : ℚ)
      if 1 ≤ acc then
        let pixelsToScroll : Int := ⌊acc⌋
        { st with isAutoPaused := false
                  scrollTop := st.scrollTop + (pixelsToScroll : ℚ)
                  scrollAccumulator := acc - (pixelsToScroll : ℚ) }
      else
        { st with isAutoPaused := false, scrollAccumulator := acc }
  else st

/-- One pass of analyzeVolume at time now with frequency-bin mean
average: publish the volume and, when the mean exceeds 10, stamp
lastNoiseTime and clear isAutoPaused. -/
def analyzeVolumeSample (now : Int) (average : ℚ) (st : PrompterState) : PrompterState :=
  let st1 := { st with currentVolume := average }
  if 10 < average then
    { st1 with lastNoiseTime := now, isAutoPaused := false }
  else st1

/-- Space key or the play button: setIsPlaying(prev => !prev); nothing
else changes. -/
def togglePlay (st : PrompterState) : PrompterState :=
  { st with isPlaying := !st.isPlaying }

/-- stopRecording: only when a recorder exists, stop it, clear
isRecording and force isPlaying to false. -/
def stopRecording (st : PrompterState) : PrompterState :=
  if st.hasRecorder then
    { st with isRecording := false, isPlaying := false }
  else st

/-- startRecording: returns early without a current media stream (no
background source active); otherwise a recorder is created and
isRecording set. -/
def startRecording (st : PrompterState) : PrompterState :=
  if st.isCameraOn || st.isScreenShareOn then
    { st with isRecording := true, hasRecorder := true }
  else st

/-- handleToggleCamera: turning the camera on first forces screen share
off (exclusive), then flips isCameraOn. -/
def handleToggleCamera (st : PrompterState) : PrompterState :=
  let st1 := if !st.isCameraOn then { st with isScreenShareOn := false } else st
  { st1 with isCameraOn := !st1.isCameraOn }

/-- handleToggleScreen: turning screen share on first forces the camera
off (exclusive), then flips isScreenShareOn. -/
def handleToggleScreen (st : PrompterState) : PrompterState :=
  let st1 := if !st.isScreenShareOn then { st with isCameraOn := false } else st
  { st1 with isScreenShareOn := !st1.isScreenShareOn }

/-- The onended handler of the screen-share video track (the native stop
sharing affordance): screen share off, stream torn down, audio-only
analysis restarted. -/
def screenShareEnded (st : PrompterState) : PrompterState :=
  { st with isScreenShareOn := false }

/-- Success path of initAudioAnalysisFromStream on a stream with audio
tracks: setMicPermission(true). -/
def micGranted (st : PrompterState) : PrompterState :=
  { st with micPermission := some true }

/-- Failure path of initAudioAnalysisOnly (microphone denied):
setMicPermission(false). -/
def micDenied (st : PrompterState) : PrompterState :=
  { st with micPermission := some false }

/-- Catch branch of startCamera: setIsCameraOn(false). -/
def cameraError (st : PrompterState) : PrompterState :=
  { st with isCameraOn := false }

/-- Catch branch of startScreenShare: setIsScreenShareOn(false). -/
def screenShareError (st : PrompterState) : PrompterState :=
  { st with isScreenShareOn := false }

/-- Keyboard speed increase: plus key, min(20, prev + 0.5). -/
def speedUp (st : PrompterState) : PrompterState :=
  { st with scrollSpeed := min 20 (st.scrollSpeed + (0.5 : ℚ)) }

/-- Keyboard speed decrease: minus key, max(0, prev - 0.5). -/
def speedDown (st : PrompterState) : PrompterState :=
  { st with scrollSpeed := max 0 (st.scrollSpeed - (0.5 : ℚ)) }

/-- Arrow keys: a fixed 100 unit manual scroll regardless of play state. -/
def nudge (delta : Int) (st : PrompterState) : PrompterState :=
  { st with scrollTop := st.scrollTop + (delta : ℚ) }

/-- Events that drive the Prompter state: animation frames, audio
samples, user input, recorder and media callbacks. -/
inductive PrompterEvent where
  | frame (now : Int)
  | audioSample (now : Int) (average : ℚ)
  | togglePlay
  | recStop
  | recStart
  | toggleCamera
  | toggleScreen
  | screenEnded
  | camError
  | screenError
  | grantMic
  | denyMic
  | speedUp
  | speedDown
  | nudgeUp
  | nudgeDown
deriving Repr, DecidableEq

/-- One Prompter event applied to the state. -/
def prompterStep (st : PrompterState) (e : PrompterEvent) : PrompterState :=
  match e with
  | .frame now => animateFrame now st
  | .audioSample now avg => analyzeVolumeSample now avg st
  | .togglePlay => togglePlay st
  | .recStop => stopRecording st
  | .recStart => startRecording st
  | .toggleCamera => handleToggleCamera st
  | .toggleScreen => handleToggleScreen st
  | .screenEnded => screenShareEnded st
  | .camError => cameraError st
  | .screenError => screenShareError st
  | .grantMic => micGranted st
  | .denyMic => micDenied st
  | .speedUp => speedUp st
  | .speedDown => speedDown st
  | .nudgeUp => nudge (-100) st
  | .nudgeDown => nudge 100 st

/-- The Prompter state reached from mount at time t0 by a sequence of
events. -/
def prompterRun (t0 : Int) (es : List PrompterEvent) : PrompterState :=
  es.foldl prompterStep (initialPrompterState t0)

/-- A sequence of animation frames at the given times. -/
def runFrames (st : PrompterState) (times : List Int) : PrompterState :=
  times.foldl (fun s t => animateFrame t s) st

/-! Effect trace of the background media manager: the order in which the
camera and screen-share acquisition paths stop tracks, detach the
preview and acquire a new stream. -/

/-- Primitive media effects, in the order the source emits them. -/
inductive MediaAction where
  | stopTracks
  | detachPreview
  | acquireStream
  | attachPreview
  | initAudio
deriving Repr, DecidableEq

/-- stopCurrentStream: stops every track of the current stream when one
exists, then detaches the preview surface. -/
def stopCurrentStreamActions (hasStream : Bool) : List MediaAction :=
  (if hasStream then [MediaAction.stopTracks] else []) ++ [MediaAction.detachPreview]

/-- startCamera: full teardown via stopCurrentStream, then getUserMedia,
preview attach and audio-analysis setup. -/
def startCameraActions (hasStream : Bool) : List MediaAction :=
  stopCurrentStreamActions hasStream
    ++ [MediaAction.acquireStream, MediaAction.attachPreview, MediaAction.initAudio]

/-- startScreenShare: full teardown via stopCurrentStream, then
getDisplayMedia, preview attach and microphone-only audio analysis. -/
def startScreenShareActions (hasStream : Bool) : List MediaAction :=
  stopCurrentStreamActions hasStream
    ++ [MediaAction.acquireStream, MediaAction.attachPreview, MediaAction.initAudio]

/-! Helper lemmas and demonstration states. -/

/-- Reading an in-range position of a mapped list through getD. -/
theorem getD_map_of_lt {α β : Type} (f : α → β) (l : List α) (i : Nat) (d : β) (e : α)
    (h : i < l.length) : (l.map f).getD i d = f (l.getD i e) := by
  induction l generalizing i with
  | nil => simp at h
  | cons a l ih =>
    cases i with
    | zero => simp
    | succ n => simpa using ih n (by simpa using h)

/-- A two-script collection used to instantiate the store theorems. -/
def demoStore : AppState :=
  { scripts :=
      [ { id := 1, title := "A", content := "alpha", lastModified := 0 },
        { id := 2, title := "B", content := "beta", lastModified := 0 } ]
    activeScriptId := 1
    nextId := 3 }

/-- A one-script collection used to instantiate the delete-last theorem. -/
def soloStore : AppState :=
  { scripts := [ { id := 1, title := "A", content := "alpha", lastModified := 0 } ]
    activeScriptId := 1
    nextId := 2 }

/-- A 51-character title, one character past the UI limit. -/
def longTitle : String := String.mk (List.replicate 51 'a')

/-- Claim C10: for every update(content) or rename(title) call, only the
script whose id equals the active script id is modified (content or title
replaced, lastModified set to the current time); every script with a
different id is left unchanged, the list length is unchanged and the
active selection is unchanged. -/
theorem update_rename_frame_condition (st : AppState) (now : Int) (c t : String)
    (i : Nat) (h : i < st.scripts.length) :
    (handleUpdateScript st now c).activeScriptId = st.activeScriptId ∧
    (handleRenameScript st now t).activeScriptId = st.activeScriptId ∧
    (handleUpdateScript st now c).scripts.length = st.scripts.length ∧
    (handleRenameScript st now t).scripts.length = st.scripts.length ∧
    ((st.scripts.getD i dummyScript).id ≠ st.activeScriptId →
      (handleUpdateScript st now c).scripts.getD i dummyScript = st.scripts.getD i dummyScript ∧
      (handleRenameScript st now t).scripts.getD i dummyScript = st.scripts.getD i dummyScript) ∧
    ((st.scripts.getD i dummyScript).id = st.activeScriptId →
      (handleUpdateScript st now c).scripts.getD i dummyScript
        = { st.scripts.getD i dummyScript with content := c, lastModified := now } ∧
      (handleRenameScript st now t).scripts.getD i dummyScript
        = { st.scripts.getD i dummyScript with title := t, lastModified := now }) := by
  refine ⟨rfl, rfl, by simp [handleUpdateScript], by simp [handleRenameScript], ?_, ?_⟩
  · intro hne
    constructor
    · rw [handleUpdateScript]
      simp only []
      rw [getD_map_of_lt _ _ _ _ dummyScript h, if_neg hne]
    · rw [handleRenameScript]
      simp only []
      rw [getD_map_of_lt _ _ _ _ dummyScript h, if_neg hne]
  · intro heq
    constructor
    · rw [handleUpdateScript]
      simp only []
      rw [getD_map_of_lt _ _ _ _ dummyScript h, if_pos heq]
    · rw [handleRenameScript]
      simp only []
      rw [getD_map_of_lt _ _ _ _ dummyScript h, if_pos heq]

/-- Witness for C10: in the two-script demo collection with script 1
active, updating the content leaves script 2 unchanged and rewrites
script 1. -/
theorem update_rename_frame_condition_witness :
    (1 < demoStore.scripts.length ∧
      (demoStore.scripts.getD 1 dummyScript).id ≠ demoStore.activeScriptId ∧
      (handleUpdateScript demoStore 5 "x").scripts.getD 1 dummyScript
        = demoStore.scripts.getD 1 dummyScript) ∧
    ((demoStore.scripts.getD 0 dummyScript).id = demoStore.activeScriptId ∧
      (handleUpdateScript demoStore 5 "x").scripts.getD 0 dummyScript
        = { demoStore.scripts.getD 0 dummyScript with content := "x", lastModified := 5 }) :=
  ⟨⟨by decide, by decide,
      ((update_rename_frame_condition demoStore 5 "x" "T" 1 (by decide)).2.2.2.2.1
        (by decide)).1⟩,
   ⟨by decide,
      ((update_rename_frame_condition demoStore 5 "x" "T" 0 (by decide)).2.2.2.2.2
        (by decide)).1⟩⟩

set_option maxRecDepth 8192 in
/-- Counterexample for claim C4: handleRenameScript performs no
truncation. Renaming the active script of the demo collection to a
51-character title stores all 51 characters, not the 50-character
truncation the claim requires, and the store then carries a title longer
than 50 characters. -/
theorem rename_no_truncation_counterexample :
    50 < longTitle.length ∧
    ((handleRenameScript demoStore 5 longTitle).scripts.getD 0 dummyScript).id
      = demoStore.activeScriptId ∧
    ((handleRenameScript demoStore 5 longTitle).scripts.getD 0 dummyScript).title = longTitle ∧
    ((handleRenameScript demoStore 5 longTitle).scripts.getD 0 dummyScript).title.length = 51 ∧
    ((handleRenameScript demoStore 5 longTitle).scripts.getD 0 dummyScript).title
      ≠ longTitle.take 50 := by
  refine ⟨by decide, by decide, by decide, by decide, ?_⟩
  intro hcontra
  have h1 : ((handleRenameScript demoStore 5 longTitle).scripts.getD 0 dummyScript).title.length
      = 51 := by decide
  have h2 : (longTitle.take 50).length = 50 := by decide
  rw [hcontra, h2] at h1
  exact absurd h1 (by decide)

/-- Claim C4, amended: handleRenameScript stores its title argument
verbatim (bumping lastModified); the 50-character bound is enforced at
the input boundary instead: the Editor title field carries maxLength 50,
so a rename issued through it stores exactly the entered text truncated
to 50 characters, and such a title never exceeds 50 characters. -/
theorem rename_truncation_input_boundary (st : AppState) (now : Int) (t : String)
    (i : Nat) (h : i < st.scripts.length)
    (hact : (st.scripts.getD i dummyScript).id = st.activeScriptId) :
    (handleRenameScript st now t).scripts.getD i dummyScript
      = { st.scripts.getD i dummyScript with title := t, lastModified := now } ∧
    (handleRenameScript st now (titleInputBoundary t)).scripts.getD i dummyScript
      = { st.scripts.getD i dummyScript with title := t.take 50, lastModified := now } ∧
    ((handleRenameScript st now (titleInputBoundary t)).scripts.getD i dummyScript).title.length
      ≤ 50 := by
  have key : ∀ t' : String, (handleRenameScript st now t').scripts.getD i dummyScript
      = { st.scripts.getD i dummyScript with title := t', lastModified := now } := by
    intro t'
    rw [handleRenameScript]
    simp only []
    rw [getD_map_of_lt _ _ _ _ dummyScript h, if_pos hact]
  refine ⟨key t, key (titleInputBoundary t), ?_⟩
  rw [key (titleInputBoundary t)]
  dsimp only
  rw [titleInputBoundary, ← String.length_data, String.data_take, List.length_take]
  exact min_le_left _ _

set_option maxRecDepth 8192 in
/-- Witness for the amended C4: renaming through the input boundary with
the 51-character title stores its 50-character truncation. -/
theorem rename_truncation_input_boundary_witness :
    0 < demoStore.scripts.length ∧
    (demoStore.scripts.getD 0 dummyScript).id = demoStore.activeScriptId ∧
    (handleRenameScript demoStore 5 (titleInputBoundary longTitle)).scripts.getD 0 dummyScript
      = { demoStore.scripts.getD 0 dummyScript with
            title := longTitle.take 50, lastModified := 5 } :=
  ⟨by decide, by decide,
    (rename_truncation_input_boundary demoStore 5 longTitle 0 (by decide) (by decide)).2.1⟩

/-- Claim C9: stopping a recording while a recorder exists clears
isRecording and forces isPlaying to false, whatever their previous
values. -/
theorem stop_recording_forces_pause (st : PrompterState) (h : st.hasRecorder = true) :
    (stopRecording st).isRecording = false ∧ (stopRecording st).isPlaying = false := by
  rw [stopRecording, if_pos h]
  exact ⟨rfl, rfl⟩

/-- A Prompter state in the middle of a recorded, playing take. -/
def recordingDemoState : PrompterState :=
  { initialPrompterState 0 with
      isPlaying := true, isRecording := true, hasRecorder := true, isCameraOn := true }

/-- Witness for C9: stopping the demo recording state, where playback is
active, ends both the recording and the playback. -/
theorem stop_recording_forces_pause_witness :
    recordingDemoState.hasRecorder = true ∧ recordingDemoState.isPlaying = true ∧
    (stopRecording recordingDemoState).isRecording = false ∧
    (stopRecording recordingDemoState).isPlaying = false :=
  ⟨by decide, by decide,
    (stop_recording_forces_pause recordingDemoState (by decide)).1,
    (stop_recording_forces_pause recordingDemoState (by decide)).2⟩

/-- A script whose title is the empty string: representable in the store,
since the title input may be cleared. -/
def emptyTitleScript : SavedScript :=
  { id := 7, title := "", content := "", lastModified := 3 }

/-- Counterexample for claim C5: the migration backfills on a JavaScript
falsy title, not only on an absent one. Serializing a script whose title
is the empty string keeps the title field present (some empty string),
yet reloading rewrites it to Untitled Script, so the round trip does not
reproduce every field. -/
theorem roundtrip_empty_title_counterexample :
    (serializeScript emptyTitleScript).title = some "" ∧
    storageRoundTrip [emptyTitleScript] ≠ [emptyTitleScript] ∧
    ((storageRoundTrip [emptyTitleScript]).getD 0 dummyScript).title = "Untitled Script" := by
  refine ⟨rfl, ?_, by decide⟩
  intro hcontra
  have h1 : ((storageRoundTrip [emptyTitleScript]).getD 0 dummyScript).title
      = "Untitled Script" := by decide
  rw [hcontra] at h1
  exact absurd h1 (by decide)

/-- Claim C5, amended: the round trip through the storage key and the
load-time migration reproduces every field of every script whose title is
nonempty; the title is backfilled (first line of content truncated to 30
characters, or the literal Untitled Script when content is empty) when
the stored title field is absent or the empty string, JavaScript falsy,
not only when it is absent. -/
theorem storage_roundtrip (scripts : List SavedScript)
    (h : ∀ s ∈ scripts, s.title ≠ "") :
    storageRoundTrip scripts = scripts ∧
    (∀ r : StoredScript, r.title = none ∨ r.title = some "" →
      (migrateScript r).title = backfillTitle r.content) ∧
    (∀ r : StoredScript, ∀ ti : String, r.title = some ti → ti ≠ "" →
      migrateScript r
        = { id := r.id, title := ti, content := r.content, lastModified := r.lastModified }) := by
  refine ⟨?_, ?_, ?_⟩
  · rw [storageRoundTrip, List.map_map]
    have hpt : ∀ s ∈ scripts, (migrateScript ∘ serializeScript) s = id s := by
      intro s hs
      have hne : s.title.isEmpty = false := by
        rw [Bool.eq_false_iff]
        intro hcontra
        exact h s hs ((String.isEmpty_iff s.title).mp hcontra)
      simp [migrateScript, serializeScript, titleFalsy, hne]
    rw [List.map_congr_left hpt, List.map_id]
  · intro r hr
    rcases hr with hr | hr <;> simp [migrateScript, titleFalsy, hr, String.isEmpty]
  · intro r ti hti hne
    have hne' : ti.isEmpty = false := by
      rw [Bool.eq_false_iff]
      intro hcontra
      exact hne ((String.isEmpty_iff ti).mp hcontra)
    simp [migrateScript, titleFalsy, hti, hne']

/-- Witness for C5: the demo collection has nonempty titles, and its
round trip through storage is the identity. -/
theorem storage_roundtrip_witness :
    (∀ s ∈ demoStore.scripts, s.title ≠ "") ∧
    storageRoundTrip demoStore.scripts = demoStore.scripts :=
  ⟨by decide, (storage_roundtrip demoStore.scripts (by decide)).1⟩

/-- Removing the unique entry carrying a given id from a collection with
pairwise distinct ids shortens it by exactly one. -/
theorem length_filter_ne_of_nodup (l : List SavedScript) (id : Nat)
    (hnd : (l.map SavedScript.id).Nodup) (hex : ∃ s ∈ l, s.id = id) :
    (l.filter fun s => s.id ≠ id).length = l.length - 1 := by
  induction l with
  | nil => simp at hex
  | cons a l ih =>
    simp only [List.map_cons, List.nodup_cons] at hnd
    obtain ⟨hna, hnd'⟩ := hnd
    by_cases ha : a.id = id
    · have hrest : ∀ s ∈ l, s.id ≠ id := by
        intro s hs hcontra
        apply hna
        rw [ha, ← hcontra]
        exact List.mem_map_of_mem SavedScript.id hs
      have hself : (l.filter fun s => s.id ≠ id) = l :=
        List.filter_eq_self.mpr fun s hs => by simpa using hrest s hs
      rw [List.filter_cons, if_neg (by simp [ha]), hself, List.length_cons]
      omega
    · have hex' : ∃ s ∈ l, s.id = id := by
        obtain ⟨s, hs, hsid⟩ := hex
        rcases List.mem_cons.mp hs with rfl | hs'
        · exact absurd hsid ha
        · exact ⟨s, hs', hsid⟩
      have hlen' := ih hnd' hex'
      have hpos : 0 < l.length := by
        obtain ⟨s, hs, -⟩ := hex'
        exact List.length_pos_of_mem hs
      rw [List.filter_cons, if_pos (by simp [ha])]
      simp only [List.length_cons, hlen']
      omega

/-- Claim C6: deleting when exactly one script remains clears it in
place: the collection keeps size 1 and its script gets empty content and
the title Untitled Script. Deleting a present id from a larger
collection removes exactly that entry, and the active selection moves to
the first remaining script exactly when the deleted id was active. -/
theorem delete_script_semantics (st : AppState) (now : Int) (id : Nat) :
    (∀ s : SavedScript, st.scripts = [s] → st.activeScriptId = s.id →
      (handleDeleteScript st now id).scripts
        = [{ s with content := "", title := "Untitled Script", lastModified := now }]) ∧
    (1 < st.scripts.length → (st.scripts.map SavedScript.id).Nodup →
      (∃ s ∈ st.scripts, s.id = id) →
      (handleDeleteScript st now id).scripts.length = st.scripts.length - 1 ∧
      (∀ s ∈ (handleDeleteScript st now id).scripts, s.id ≠ id) ∧
      (id = st.activeScriptId →
        (handleDeleteScript st now id).scripts ≠ [] ∧
        (handleDeleteScript st now id).activeScriptId
          = ((handleDeleteScript st now id).scripts.headD dummyScript).id) ∧
      (id ≠ st.activeScriptId →
        (handleDeleteScript st now id).activeScriptId = st.activeScriptId)) := by
  constructor
  · intro s hs hact
    have hle : st.scripts.length ≤ 1 := by rw [hs]; simp
    rw [handleDeleteScript, if_pos hle]
    simp [handleUpdateScript, handleRenameScript, hs, ← hact]
  · intro hlen hnd hex
    have hnl : ¬ st.scripts.length ≤ 1 := by omega
    have hflen : (st.scripts.filter fun s => s.id ≠ id).length = st.scripts.length - 1 :=
      length_filter_ne_of_nodup st.scripts id hnd hex
    have hfmem : ∀ s ∈ st.scripts.filter fun s => s.id ≠ id, s.id ≠ id := by
      intro s hs
      simpa using (List.mem_filter.mp hs).2
    by_cases hid : id = st.activeScriptId
    · have hD : handleDeleteScript st now id
          = { st with scripts := st.scripts.filter fun s => s.id ≠ id,
                      activeScriptId :=
                        ((st.scripts.filter fun s => s.id ≠ id).headD dummyScript).id } := by
        rw [handleDeleteScript, if_neg hnl]
        simp only [if_pos hid]
      rw [hD]
      refine ⟨hflen, hfmem, fun _ => ⟨?_, rfl⟩, fun hne => absurd hid hne⟩
      have : 0 < (st.scripts.filter fun s => s.id ≠ id).length := by omega
      exact List.ne_nil_of_length_pos this
    · have hD : handleDeleteScript st now id
          = { st with scripts := st.scripts.filter fun s => s.id ≠ id } := by
        rw [handleDeleteScript, if_neg hnl]
        simp only [if_neg hid]
      rw [hD]
      exact ⟨hflen, hfmem, fun heq => absurd heq hid, fun _ => rfl⟩

/-- Witness for C6: deleting the sole script of the one-script collection
clears it in place; deleting the inactive script 2 of the demo
collection shrinks it to one entry and keeps script 1 active. -/
theorem delete_script_semantics_witness :
    (soloStore.scripts = [{ id := 1, title := "A", content := "alpha", lastModified := 0 }] ∧
      (handleDeleteScript soloStore 9 1).scripts
        = [{ id := 1, title := "Untitled Script", content := "", lastModified := 9 }]) ∧
    (1 < demoStore.scripts.length ∧
      (handleDeleteScript demoStore 9 2).scripts.length = 1 ∧
      (handleDeleteScript demoStore 9 2).activeScriptId = demoStore.activeScriptId) :=
  ⟨⟨by decide,
      (delete_script_semantics soloStore 9 1).1
        { id := 1, title := "A", content := "alpha", lastModified := 0 } (by decide) (by decide)⟩,
   ⟨by decide,
      ((delete_script_semantics demoStore 9 2).2 (by decide) (by decide) (by decide)).1,
      (((delete_script_semantics demoStore 9 2).2 (by decide) (by decide) (by decide)).2.2.2
        (by decide))⟩⟩

/-! Reachability invariant of the script store. -/

/-- Invariant carried by every reachable store state: between one and ten
scripts, pairwise distinct ids, and every id below the fresh-id
counter. -/
def StoreInv (st : AppState) : Prop :=
  1 ≤ st.scripts.length ∧ st.scripts.length ≤ 10 ∧
  (st.scripts.map SavedScript.id).Nodup ∧
  ∀ i ∈ st.scripts.map SavedScript.id, i < st.nextId

/-- The update handler keeps ids, length, active selection and the
fresh-id counter. -/
theorem updateScript_ids (st : AppState) (now : Int) (c : String) :
    (handleUpdateScript st now c).scripts.map SavedScript.id
      = st.scripts.map SavedScript.id ∧
    (handleUpdateScript st now c).scripts.length = st.scripts.length ∧
    (handleUpdateScript st now c).activeScriptId = st.activeScriptId ∧
    (handleUpdateScript st now c).nextId = st.nextId := by
  refine ⟨?_, by simp [handleUpdateScript], rfl, rfl⟩
  rw [handleUpdateScript]
  simp only [List.map_map]
  apply List.map_congr_left
  intro s _
  by_cases h : s.id = st.activeScriptId <;> simp [h, Function.comp]

/-- The rename handler keeps ids, length, active selection and the
fresh-id counter. -/
theorem renameScript_ids (st : AppState) (now : Int) (t : String) :
    (handleRenameScript st now t).scripts.map SavedScript.id
      = st.scripts.map SavedScript.id ∧
    (handleRenameScript st now t).scripts.length = st.scripts.length ∧
    (handleRenameScript st now t).activeScriptId = st.activeScriptId ∧
    (handleRenameScript st now t).nextId = st.nextId := by
  refine ⟨?_, by simp [handleRenameScript], rfl, rfl⟩
  rw [handleRenameScript]
  simp only [List.map_map]
  apply List.map_congr_left
  intro s _
  by_cases h : s.id = st.activeScriptId <;> simp [h, Function.comp]

/-- A collection in which no entry carries the given id is untouched by
the delete filter. -/
theorem filter_ne_eq_self (l : List SavedScript) (id : Nat) (h : ∀ s ∈ l, s.id ≠ id) :
    (l.filter fun s => s.id ≠ id) = l :=
  List.filter_eq_self.mpr fun s hs => by simpa using h s hs

/-- With pairwise distinct ids, the delete filter removes at most one
entry. -/
theorem length_filter_ne_ge (l : List SavedScript) (id : Nat)
    (hnd : (l.map SavedScript.id).Nodup) :
    l.length - 1 ≤ (l.filter fun s => s.id ≠ id).length := by
  by_cases hex : ∃ s ∈ l, s.id = id
  · rw [length_filter_ne_of_nodup l id hnd hex]
  · push_neg at hex
    rw [filter_ne_eq_self l id hex]
    omega

/-- The initial collection satisfies the store invariant. -/
theorem storeInv_initial : StoreInv initialAppState :=
  ⟨by decide, by decide, by decide, by decide⟩

/-- Every store event preserves the store invariant. -/
theorem storeInv_step (st : AppState) (e : StoreEvent) (h : StoreInv st) :
    StoreInv (storeStep st e) := by
  obtain ⟨h1, h2, h3, h4⟩ := h
  cases e with
  | create now =>
    rw [storeStep, handleCreateScript]
    split
    · exact ⟨h1, h2, h3, h4⟩
    · next hcap =>
      rw [MAX_SCRIPTS] at hcap
      refine ⟨by simp, by simp only [List.length_cons]; omega, ?_, ?_⟩
      · simp only [List.map_cons, List.nodup_cons]
        refine ⟨fun hmem => ?_, h3⟩
        have := h4 _ hmem
        omega
      · intro i hi
        simp only [List.map_cons, List.mem_cons] at hi
        rcases hi with rfl | hi
        · simp
        · exact Nat.lt_succ_of_lt (h4 i hi)
  | update now c =>
    obtain ⟨hm, hl, -, hn⟩ := updateScript_ids st now c
    rw [storeStep]
    exact ⟨by rw [hl]; exact h1, by rw [hl]; exact h2, by rw [hm]; exact h3,
      fun i hi => by rw [hn]; exact h4 i (hm ▸ hi)⟩
  | rename now t =>
    obtain ⟨hm, hl, -, hn⟩ := renameScript_ids st now t
    rw [storeStep]
    exact ⟨by rw [hl]; exact h1, by rw [hl]; exact h2, by rw [hm]; exact h3,
      fun i hi => by rw [hn]; exact h4 i (hm ▸ hi)⟩
  | delete now id =>
    rw [storeStep]
    by_cases hsmall : st.scripts.length ≤ 1
    · have hD : handleDeleteScript st now id
          = handleRenameScript (handleUpdateScript st now "") now "Untitled Script" := by
        rw [handleDeleteScript, if_pos hsmall]
      rw [hD]
      obtain ⟨hm1, hl1, -, hn1⟩ := updateScript_ids st now ""
      obtain ⟨hm2, hl2, -, hn2⟩ :=
        renameScript_ids (handleUpdateScript st now "") now "Untitled Script"
      refine ⟨?_, ?_, ?_, ?_⟩
      · rw [hl2, hl1]; exact h1
      · rw [hl2, hl1]; exact h2
      · rw [hm2, hm1]; exact h3
      · intro i hi
        rw [hm2, hm1] at hi
        rw [hn2, hn1]
        exact h4 i hi
    · have hnd' : ((st.scripts.filter fun s => s.id ≠ id).map SavedScript.id).Nodup :=
        h3.sublist (List.Sublist.map SavedScript.id (List.filter_sublist st.scripts))
      have hlb := length_filter_ne_ge st.scripts id h3
      have hub : (st.scripts.filter fun s => s.id ≠ id).length ≤ st.scripts.length :=
        List.length_filter_le _ _
      have hbound : ∀ i ∈ (st.scripts.filter fun s => s.id ≠ id).map SavedScript.id,
          i < st.nextId := fun i hi =>
        h4 i ((List.Sublist.map SavedScript.id (List.filter_sublist st.scripts)).subset hi)
      by_cases hid : id = st.activeScriptId
      · have hD : handleDeleteScript st now id
            = { st with scripts := st.scripts.filter fun s => s.id ≠ id,
                        activeScriptId :=
                          ((st.scripts.filter fun s => s.id ≠ id).headD dummyScript).id } := by
          rw [handleDeleteScript, if_neg hsmall]
          simp only [if_pos hid]
        rw [hD]
        refine ⟨?_, ?_, hnd', hbound⟩
        · show 1 ≤ (st.scripts.filter fun s => s.id ≠ id).length
          omega
        · show (st.scripts.filter fun s => s.id ≠ id).length ≤ 10
          omega
      · have hD : handleDeleteScript st now id
            = { st with scripts := st.scripts.filter fun s => s.id ≠ id } := by
          rw [handleDeleteScript, if_neg hsmall]
          simp only [if_neg hid]
        rw [hD]
        refine ⟨?_, ?_, hnd', hbound⟩
        · show 1 ≤ (st.scripts.filter fun s => s.id ≠ id).length
          omega
        · show (st.scripts.filter fun s => s.id ≠ id).length ≤ 10
          omega
  | select id =>
    exact ⟨h1, h2, h3, h4⟩

/-- Every state reachable by store events satisfies the store
invariant. -/
theorem storeInv_run (es : List StoreEvent) : StoreInv (storeRun es) := by
  have key : ∀ st, StoreInv st → StoreInv (es.foldl storeStep st) := by
    induction es with
    | nil => exact fun st h => h
    | cons e es ih => exact fun st h => ih (storeStep st e) (storeInv_step st e h)
  exact key initialAppState storeInv_initial

/-- Claim C7: in every state reachable from the initial state by create,
update, rename, delete and select operations the script count stays
between 1 and 10, and a create issued at a count of 10 changes nothing,
neither the collection nor the active selection. -/
theorem script_count_invariant (es : List StoreEvent) (now : Int) :
    1 ≤ (storeRun es).scripts.length ∧ (storeRun es).scripts.length ≤ 10 ∧
    (10 ≤ (storeRun es).scripts.length →
      handleCreateScript (storeRun es) now = storeRun es) := by
  obtain ⟨h1, h2, -, -⟩ := storeInv_run es
  refine ⟨h1, h2, fun hfull => ?_⟩
  rw [handleCreateScript, if_pos]
  rw [MAX_SCRIPTS]
  exact hfull

/-- Witness for C7: nine consecutive create calls fill the store to ten
scripts, and a tenth create call leaves the state unchanged. -/
theorem script_count_invariant_witness :
    (storeRun (List.replicate 9 (StoreEvent.create 0))).scripts.length = 10 ∧
    handleCreateScript (storeRun (List.replicate 9 (StoreEvent.create 0))) 5
      = storeRun (List.replicate 9 (StoreEvent.create 0)) :=
  ⟨by decide,
    (script_count_invariant (List.replicate 9 (StoreEvent.create 0)) 5).2.2 (by decide)⟩

/-! Frame-level lemmas about the playback controller. -/

/-- One animation frame only ever touches isAutoPaused, scrollTop and the
accumulator; every other field of the Prompter state is untouched. -/
theorem animateFrame_fields (now : Int) (st : PrompterState) :
    (animateFrame now st).isPlaying = st.isPlaying ∧
    (animateFrame now st).micPermission = st.micPermission ∧
    (animateFrame now st).scrollSpeed = st.scrollSpeed ∧
    (animateFrame now st).silenceThresholdSeconds = st.silenceThresholdSeconds ∧
    (animateFrame now st).lastNoiseTime = st.lastNoiseTime ∧
    (animateFrame now st).isRecording = st.isRecording ∧
    (animateFrame now st).hasRecorder = st.hasRecorder ∧
    (animateFrame now st).isCameraOn = st.isCameraOn ∧
    (animateFrame now st).isScreenShareOn = st.isScreenShareOn := by
  simp only [animateFrame]
  split
  · split
    · exact ⟨rfl, rfl, rfl, rfl, rfl, rfl, rfl, rfl, rfl⟩
    · split
      · exact ⟨rfl, rfl, rfl, rfl, rfl, rfl, rfl, rfl, rfl⟩
      · exact ⟨rfl, rfl, rfl, rfl, rfl, rfl, rfl, rfl, rfl⟩
  · exact ⟨rfl, rfl, rfl, rfl, rfl, rfl, rfl, rfl, rfl⟩

/-- A frame evaluated while playing, when the silence condition holds,
only sets isAutoPaused. -/
theorem animateFrame_pause (now : Int) (st : PrompterState) (hplay : st.isPlaying = true)
    (hcond : st.micPermission = some true ∧
      st.silenceThresholdSeconds * 1000 < ((now - st.lastNoiseTime : Int) : ℚ)) :
    animateFrame now st = { st with isAutoPaused := true } := by
  simp only [animateFrame]
  rw [if_pos hplay]
  exact if_pos hcond

/-- A frame evaluated while playing, when the silence condition fails,
clears isAutoPaused and advances the scroll total (applied pixels plus
accumulator) by scrollSpeed times 0.5, keeping the accumulator inside
[0, 1) and the applied delta an integer. -/
theorem animateFrame_scroll (now : Int) (st : PrompterState) (hplay : st.isPlaying = true)
    (hcond : ¬(st.micPermission = some true ∧
      st.silenceThresholdSeconds * 1000 < ((now - st.lastNoiseTime : Int) : ℚ))) :
    (animateFrame now st).isAutoPaused = false ∧
    (animateFrame now st).scrollTop + (animateFrame now st).scrollAccumulator
      = st.scrollTop + st.scrollAccumulator + st.scrollSpeed * (0.5 : ℚ) ∧
    (∃ m : ℤ, (animateFrame now st).scrollTop = st.scrollTop + (m : ℚ)) ∧
    (0 ≤ st.scrollAccumulator → 0 ≤ st.scrollSpeed →
      0 ≤ (animateFrame now st).scrollAccumulator ∧
      (animateFrame now st).scrollAccumulator < 1) := by
  simp only [animateFrame]
  rw [if_pos hplay, if_neg hcond]
  by_cases hge : 1 ≤ st.scrollAccumulator + st.scrollSpeed * (0.5 : ℚ)
  · rw [if_pos hge]
    refine ⟨rfl, by ring, ⟨⌊st.scrollAccumulator + st.scrollSpeed * (0.5 : ℚ)⌋, rfl⟩,
      fun h0 hs => ⟨?_, ?_⟩⟩
    · show 0 ≤ st.scrollAccumulator + st.scrollSpeed * (0.5 : ℚ)
        - ((⌊st.scrollAccumulator + st.scrollSpeed * (0.5 : ℚ)⌋ : ℤ) : ℚ)
      rw [Int.self_sub_floor]
      exact Int.fract_nonneg _
    · show st.scrollAccumulator + st.scrollSpeed * (0.5 : ℚ)
        - ((⌊st.scrollAccumulator + st.scrollSpeed * (0.5 : ℚ)⌋ : ℤ) : ℚ) < 1
      rw [Int.self_sub_floor]
      exact Int.fract_lt_one _
  · rw [if_neg hge]
    refine ⟨rfl, by ring, ⟨0, by simp⟩, fun h0 hs => ⟨?_, ?_⟩⟩
    · show 0 ≤ st.scrollAccumulator + st.scrollSpeed * (0.5 : ℚ)
      have : 0 ≤ st.scrollSpeed * (0.5 : ℚ) := mul_nonneg hs (by norm_num)
      linarith
    · show st.scrollAccumulator + st.scrollSpeed * (0.5 : ℚ) < 1
      exact lt_of_not_le hge

/-- A loud sample: publish the volume, stamp lastNoiseTime and clear the
auto-pause flag. -/
theorem analyzeVolumeSample_loud (now : Int) (avg : ℚ) (st : PrompterState)
    (havg : 10 < avg) :
    analyzeVolumeSample now avg st
      = { st with currentVolume := avg, lastNoiseTime := now, isAutoPaused := false } := by
  simp only [analyzeVolumeSample]
  rw [if_pos havg]

/-- An audio sample never touches playback, permission, media or scroll
fields. -/
theorem analyzeVolumeSample_fields (now : Int) (avg : ℚ) (st : PrompterState) :
    (analyzeVolumeSample now avg st).isPlaying = st.isPlaying ∧
    (analyzeVolumeSample now avg st).micPermission = st.micPermission ∧
    (analyzeVolumeSample now avg st).isCameraOn = st.isCameraOn ∧
    (analyzeVolumeSample now avg st).isScreenShareOn = st.isScreenShareOn ∧
    (analyzeVolumeSample now avg st).scrollSpeed = st.scrollSpeed ∧
    (analyzeVolumeSample now avg st).silenceThresholdSeconds = st.silenceThresholdSeconds := by
  simp only [analyzeVolumeSample]
  split <;> exact ⟨rfl, rfl, rfl, rfl, rfl, rfl⟩

/-- Claim C1: on a frame evaluated while isPlaying, the controller sets
isAutoPaused if and only if microphone permission was granted and the
time since lastNoiseTime exceeds silenceThresholdSeconds times 1000
milliseconds; a sample whose frequency-bin mean exceeds 10 stamps
lastNoiseTime, clears isAutoPaused at once, and the following frame,
falling inside the fresh silence window, leaves auto-pause off; and
without granted permission a frame never pauses and always advances the
scroll total by scrollSpeed times 0.5. -/
theorem auto_pause_frame_decision (st : PrompterState) (now snow fnow : Int) (avg : ℚ)
    (hplay : st.isPlaying = true) :
    ((animateFrame now st).isAutoPaused = true ↔
      st.micPermission = some true ∧
        st.silenceThresholdSeconds * 1000 < ((now - st.lastNoiseTime : Int) : ℚ)) ∧
    (10 < avg →
      (analyzeVolumeSample snow avg st).isAutoPaused = false ∧
      (analyzeVolumeSample snow avg st).lastNoiseTime = snow ∧
      (((fnow - snow : Int) : ℚ) ≤ st.silenceThresholdSeconds * 1000 →
        (animateFrame fnow (analyzeVolumeSample snow avg st)).isAutoPaused = false)) ∧
    (st.micPermission ≠ some true →
      (animateFrame now st).isAutoPaused = false ∧
      (animateFrame now st).scrollTop + (animateFrame now st).scrollAccumulator
        = st.scrollTop + st.scrollAccumulator + st.scrollSpeed * (0.5 : ℚ)) := by
  refine ⟨?_, ?_, ?_⟩
  · by_cases hcond : st.micPermission = some true ∧
        st.silenceThresholdSeconds * 1000 < ((now - st.lastNoiseTime : Int) : ℚ)
    · rw [animateFrame_pause now st hplay hcond]
      simpa using hcond
    · rw [(animateFrame_scroll now st hplay hcond).1]
      constructor
      · intro hfalse
        exact absurd hfalse (by simp)
      · intro hc
        exact absurd hc hcond
  · intro havg
    have hsamp := analyzeVolumeSample_loud snow avg st havg
    refine ⟨by rw [hsamp], by rw [hsamp], fun hwin => ?_⟩
    obtain ⟨hsp, -, -, -, -, hsthr⟩ := analyzeVolumeSample_fields snow avg st
    have hlast : (analyzeVolumeSample snow avg st).lastNoiseTime = snow := by rw [hsamp]
    have hcond : ¬((analyzeVolumeSample snow avg st).micPermission = some true ∧
        (analyzeVolumeSample snow avg st).silenceThresholdSeconds * 1000
          < ((fnow - (analyzeVolumeSample snow avg st).lastNoiseTime : Int) : ℚ)) := by
      intro hcontra
      rw [hsthr, hlast] at hcontra
      exact absurd hcontra.2 (not_lt.mpr hwin)
    exact (animateFrame_scroll fnow _ (by rw [hsp]; exact hplay) hcond).1
  · intro hmic
    have hcond : ¬(st.micPermission = some true ∧
        st.silenceThresholdSeconds * 1000 < ((now - st.lastNoiseTime : Int) : ℚ)) :=
      fun hc => hmic hc.1
    exact ⟨(animateFrame_scroll now st hplay hcond).1,
      (animateFrame_scroll now st hplay hcond).2.1⟩

/-- A playing Prompter state with granted microphone permission,
otherwise as mounted at time 0. -/
def playingState : PrompterState :=
  { initialPrompterState 0 with isPlaying := true, micPermission := some true }

/-- Witness for C1: in the playing state with permission granted, a frame
3 seconds after the last noise engages auto-pause; a loud sample clears
it and the next frame inside the silence window keeps it off. -/
theorem auto_pause_frame_decision_witness :
    playingState.isPlaying = true ∧
    (animateFrame 3000 playingState).isAutoPaused = true ∧
    (analyzeVolumeSample 3100 50 playingState).isAutoPaused = false ∧
    (animateFrame 3500 (analyzeVolumeSample 3100 50 playingState)).isAutoPaused = false := by
  have h := auto_pause_frame_decision playingState 3000 3100 3500 50 rfl
  refine ⟨rfl, ?_, ?_, ?_⟩
  · exact h.1.mpr ⟨rfl, by show (2 : ℚ) * 1000 < ((3000 - 0 : Int) : ℚ); norm_num⟩
  · exact (h.2.1 (by norm_num)).1
  · exact (h.2.1 (by norm_num)).2.2
      (by show ((3500 - 3100 : Int) : ℚ) ≤ (2 : ℚ) * 1000; norm_num)

/-- Invariant of a run of frames in the playing, never-auto-pausing mode:
the scroll total advances by speed times 0.5 per frame, the applied part
is an integer and the accumulator stays inside [0, 1). -/
theorem runFrames_invariant (times : List Int) (st : PrompterState)
    (hplay : st.isPlaying = true)
    (hnp : ∀ t ∈ times, ¬(st.micPermission = some true ∧
      st.silenceThresholdSeconds * 1000 < ((t - st.lastNoiseTime : Int) : ℚ)))
    (hs : 0 ≤ st.scrollSpeed) (h0 : 0 ≤ st.scrollAccumulator)
    (h1 : st.scrollAccumulator < 1) :
    (runFrames st times).scrollTop + (runFrames st times).scrollAccumulator
      = st.scrollTop + st.scrollAccumulator
        + (times.length : ℚ) * st.scrollSpeed * (0.5 : ℚ) ∧
    (∃ m : ℤ, (runFrames st times).scrollTop = st.scrollTop + (m : ℚ)) ∧
    0 ≤ (runFrames st times).scrollAccumulator ∧
    (runFrames st times).scrollAccumulator < 1 := by
  induction times generalizing st with
  | nil =>
    refine ⟨by simp [runFrames], ⟨0, by simp [runFrames]⟩, ?_, ?_⟩
    · simpa [runFrames] using h0
    · simpa [runFrames] using h1
  | cons t ts ih =>
    have hrun : runFrames st (t :: ts) = runFrames (animateFrame t st) ts := rfl
    have hcond : ¬(st.micPermission = some true ∧
        st.silenceThresholdSeconds * 1000 < ((t - st.lastNoiseTime : Int) : ℚ)) :=
      hnp t (List.mem_cons_self t ts)
    obtain ⟨-, hsum, ⟨m1, hm1⟩, hbounds⟩ := animateFrame_scroll t st hplay hcond
    obtain ⟨hb0, hb1⟩ := hbounds h0 hs
    obtain ⟨hfp, hfm, hfs, hfthr, hfl, -, -, -, -⟩ := animateFrame_fields t st
    have hnp' : ∀ t' ∈ ts, ¬((animateFrame t st).micPermission = some true ∧
        (animateFrame t st).silenceThresholdSeconds * 1000
          < ((t' - (animateFrame t st).lastNoiseTime : Int) : ℚ)) := by
      intro t' ht'
      rw [hfm, hfthr, hfl]
      exact hnp t' (List.mem_cons_of_mem t ht')
    obtain ⟨isum, ⟨m2, hm2⟩, i0, i1⟩ := ih (animateFrame t st)
      (by rw [hfp]; exact hplay) hnp' (by rw [hfs]; exact hs) hb0 hb1
    rw [hrun]
    refine ⟨?_, ⟨m1 + m2, ?_⟩, i0, i1⟩
    · rw [isum, hfs, hsum]
      simp only [List.length_cons, Nat.cast_succ]
      ring
    · rw [hm2, hm1]
      push_cast
      ring

/-- Claim C2: starting from a zero accumulator, over any run of frames on
each of which the controller is playing and the silence condition fails
(so it is never auto-paused), the cumulative applied integer scroll
equals the floor of frame count times scrollSpeed times 0.5, and never
drifts from the exact fractional total by more than 1 unit. -/
theorem scroll_accumulation_floor (st : PrompterState) (times : List Int)
    (hplay : st.isPlaying = true)
    (hnp : ∀ t ∈ times, ¬(st.micPermission = some true ∧
      st.silenceThresholdSeconds * 1000 < ((t - st.lastNoiseTime : Int) : ℚ)))
    (hs : 0 ≤ st.scrollSpeed) (hacc : st.scrollAccumulator = 0) :
    (runFrames st times).scrollTop - st.scrollTop
      = ((⌊(times.length : ℚ) * st.scrollSpeed * (0.5 : ℚ)⌋ : ℤ) : ℚ) ∧
    |((runFrames st times).scrollTop - st.scrollTop)
        - (times.length : ℚ) * st.scrollSpeed * (0.5 : ℚ)| ≤ 1 := by
  obtain ⟨hsum, ⟨m, hm⟩, hge, hlt⟩ := runFrames_invariant times st hplay hnp hs
    (by rw [hacc]) (by rw [hacc]; norm_num)
  rw [hacc] at hsum
  have hmval : (m : ℚ) = (times.length : ℚ) * st.scrollSpeed * (0.5 : ℚ)
      - (runFrames st times).scrollAccumulator := by
    rw [hm] at hsum
    linarith
  have hfloor : ⌊(times.length : ℚ) * st.scrollSpeed * (0.5 : ℚ)⌋ = m := by
    rw [Int.floor_eq_iff]
    constructor
    · rw [hmval]; linarith
    · rw [hmval]; linarith
  refine ⟨?_, ?_⟩
  · rw [hm, hfloor]
    ring
  · rw [hm, abs_le]
    constructor <;> linarith [hmval, hge, hlt]

/-- A playing state with scrollSpeed 1 and microphone permission denied,
as in the ten-frame example of the spec. -/
def speedOneState : PrompterState :=
  { initialPrompterState 0 with
      isPlaying := true, micPermission := some false, scrollSpeed := 1 }

/-- Witness for C2: ten frames at speed 1 apply exactly floor(10 times
0.5) = 5 whole units of scroll. -/
theorem scroll_accumulation_floor_witness :
    speedOneState.isPlaying = true ∧
    (runFrames speedOneState [1, 2, 3, 4, 5, 6, 7, 8, 9, 10]).scrollTop
        - speedOneState.scrollTop
      = ((⌊(([1, 2, 3, 4, 5, 6, 7, 8, 9, 10] : List Int).length : ℚ)
            * speedOneState.scrollSpeed * (0.5 : ℚ)⌋ : ℤ) : ℚ) ∧
    ((⌊(([1, 2, 3, 4, 5, 6, 7, 8, 9, 10] : List Int).length : ℚ)
        * speedOneState.scrollSpeed * (0.5 : ℚ)⌋ : ℤ) : ℚ) = 5 :=
  ⟨rfl,
    (scroll_accumulation_floor speedOneState [1, 2, 3, 4, 5, 6, 7, 8, 9, 10]
      rfl (fun t ht hc => absurd hc.1 (by decide))
      (by norm_num [speedOneState, initialPrompterState]) rfl).1,
    by
      have hl : (([1, 2, 3, 4, 5, 6, 7, 8, 9, 10] : List Int).length : ℚ) = 10 := by
        norm_num
      rw [hl]
      show ((⌊(10 : ℚ) * speedOneState.scrollSpeed * (0.5 : ℚ)⌋ : ℤ) : ℚ) = 5
      norm_num [speedOneState, initialPrompterState]⟩

/-- Counterexample for claim C3: grant the microphone, start playback, let
a frame 5 seconds after mount engage auto-pause, then press Space. The
toggle flips isPlaying off but never clears isAutoPaused, so the reached
state has isAutoPaused true with isPlaying false. -/
theorem autopause_sticky_counterexample :
    (prompterRun 0
        [PrompterEvent.grantMic, PrompterEvent.togglePlay, PrompterEvent.frame 5000,
          PrompterEvent.togglePlay]).isAutoPaused = true ∧
    (prompterRun 0
        [PrompterEvent.grantMic, PrompterEvent.togglePlay, PrompterEvent.frame 5000,
          PrompterEvent.togglePlay]).isPlaying = false := by
  have hstep : prompterRun 0
      [PrompterEvent.grantMic, PrompterEvent.togglePlay, PrompterEvent.frame 5000,
        PrompterEvent.togglePlay]
      = togglePlay (animateFrame 5000 (togglePlay (micGranted (initialPrompterState 0)))) :=
    rfl
  have hpause : animateFrame 5000 (togglePlay (micGranted (initialPrompterState 0)))
      = { togglePlay (micGranted (initialPrompterState 0)) with isAutoPaused := true } :=
    animateFrame_pause 5000 _ rfl
      ⟨rfl, by show (2 : ℚ) * 1000 < ((5000 - 0 : Int) : ℚ); norm_num⟩
  rw [hstep, hpause]
  exact ⟨rfl, rfl⟩

/-- Claim C3, amended: isAutoPaused can only become true while isPlaying
is true: the only event that sets the flag is an animation frame, which
requires and preserves isPlaying = true. The flag may however remain true
after playback stops, because neither the play toggle nor a recording
stop clears it, so states with isAutoPaused true and isPlaying false are
reachable until the next loud sample clears the flag. -/
theorem autopause_engages_only_while_playing (st : PrompterState) (e : PrompterEvent)
    (h0 : st.isAutoPaused = false) (h1 : (prompterStep st e).isAutoPaused = true) :
    st.isPlaying = true ∧ (prompterStep st e).isPlaying = true ∧
    (togglePlay st).isAutoPaused = st.isAutoPaused ∧
    (stopRecording st).isAutoPaused = st.isAutoPaused := by
  have ht : (togglePlay st).isAutoPaused = st.isAutoPaused := rfl
  have hr : (stopRecording st).isAutoPaused = st.isAutoPaused := by
    rw [stopRecording]
    split <;> rfl
  cases e with
  | frame now =>
    by_cases hp : st.isPlaying = true
    · refine ⟨hp, ?_, ht, hr⟩
      show (animateFrame now st).isPlaying = true
      rw [(animateFrame_fields now st).1]
      exact hp
    · have hnp : st.isPlaying = false := Bool.eq_false_iff.mpr hp
      have hid : animateFrame now st = st := by
        simp only [animateFrame]
        rw [if_neg (by simp [hnp])]
      simp only [prompterStep] at h1
      rw [hid, h0] at h1
      exact absurd h1 (by simp)
  | audioSample now avg =>
    simp only [prompterStep, analyzeVolumeSample] at h1
    split at h1
    · simp at h1
    · simp [h0] at h1
  | togglePlay => simp [prompterStep, togglePlay, h0] at h1
  | recStop =>
    simp only [prompterStep, stopRecording] at h1
    split at h1 <;> simp [h0] at h1
  | recStart =>
    simp only [prompterStep, startRecording] at h1
    split at h1 <;> simp [h0] at h1
  | toggleCamera =>
    simp only [prompterStep, handleToggleCamera] at h1
    split at h1 <;> simp [h0] at h1
  | toggleScreen =>
    simp only [prompterStep, handleToggleScreen] at h1
    split at h1 <;> simp [h0] at h1
  | screenEnded => simp [prompterStep, screenShareEnded, h0] at h1
  | camError => simp [prompterStep, cameraError, h0] at h1
  | screenError => simp [prompterStep, screenShareError, h0] at h1
  | grantMic => simp [prompterStep, micGranted, h0] at h1
  | denyMic => simp [prompterStep, micDenied, h0] at h1
  | speedUp => simp [prompterStep, speedUp, h0] at h1
  | speedDown => simp [prompterStep, speedDown, h0] at h1
  | nudgeUp => simp [prompterStep, nudge, h0] at h1
  | nudgeDown => simp [prompterStep, nudge, h0] at h1

/-- Witness for the amended C3: in the playing state with granted
permission and no flag set, a frame 5 seconds into silence sets the flag
while playback is on before and after. -/
theorem autopause_engages_only_while_playing_witness :
    playingState.isAutoPaused = false ∧
    (prompterStep playingState (PrompterEvent.frame 5000)).isAutoPaused = true ∧
    playingState.isPlaying = true ∧
    (prompterStep playingState (PrompterEvent.frame 5000)).isPlaying = true := by
  have hpause : animateFrame 5000 playingState = { playingState with isAutoPaused := true } :=
    animateFrame_pause 5000 playingState rfl
      ⟨rfl, by show (2 : ℚ) * 1000 < ((5000 - 0 : Int) : ℚ); norm_num⟩
  have h1 : (prompterStep playingState (PrompterEvent.frame 5000)).isAutoPaused = true := by
    show (animateFrame 5000 playingState).isAutoPaused = true
    rw [hpause]
  refine ⟨rfl, h1, ?_, ?_⟩
  · exact (autopause_engages_only_while_playing playingState (PrompterEvent.frame 5000)
      rfl h1).1
  · exact (autopause_engages_only_while_playing playingState (PrompterEvent.frame 5000)
      rfl h1).2.1

/-- Every Prompter event preserves the camera and screen-share flags
never being simultaneously on. -/
theorem media_exclusive_step (st : PrompterState) (e : PrompterEvent)
    (h : ¬(st.isCameraOn = true ∧ st.isScreenShareOn = true)) :
    ¬((prompterStep st e).isCameraOn = true ∧ (prompterStep st e).isScreenShareOn = true) := by
  cases e with
  | frame now =>
    obtain ⟨-, -, -, -, -, -, -, hc, hs⟩ := animateFrame_fields now st
    show ¬((animateFrame now st).isCameraOn = true ∧ (animateFrame now st).isScreenShareOn = true)
    rw [hc, hs]
    exact h
  | audioSample now avg =>
    obtain ⟨-, -, hc, hs, -, -⟩ := analyzeVolumeSample_fields now avg st
    show ¬((analyzeVolumeSample now avg st).isCameraOn = true
      ∧ (analyzeVolumeSample now avg st).isScreenShareOn = true)
    rw [hc, hs]
    exact h
  | togglePlay => simpa [prompterStep, togglePlay] using h
  | recStop =>
    simp only [prompterStep, stopRecording]
    split <;> simpa using h
  | recStart =>
    simp only [prompterStep, startRecording]
    split <;> simpa using h
  | toggleCamera =>
    by_cases hc : st.isCameraOn = true <;> simp [prompterStep, handleToggleCamera, hc]
  | toggleScreen =>
    by_cases hs : st.isScreenShareOn = true <;> simp [prompterStep, handleToggleScreen, hs]
  | screenEnded => simp [prompterStep, screenShareEnded]
  | camError => simp [prompterStep, cameraError]
  | screenError => simp [prompterStep, screenShareError]
  | grantMic => simpa [prompterStep, micGranted] using h
  | denyMic => simpa [prompterStep, micDenied] using h
  | speedUp => simpa [prompterStep, speedUp] using h
  | speedDown => simpa [prompterStep, speedDown] using h
  | nudgeUp => simpa [prompterStep, nudge] using h
  | nudgeDown => simpa [prompterStep, nudge] using h

/-- In every reachable Prompter state the two background sources are not
both on. -/
theorem media_exclusive_run (t0 : Int) (es : List PrompterEvent) :
    ¬((prompterRun t0 es).isCameraOn = true ∧ (prompterRun t0 es).isScreenShareOn = true) := by
  have key : ∀ (es' : List PrompterEvent) (st : PrompterState),
      ¬(st.isCameraOn = true ∧ st.isScreenShareOn = true) →
      ¬((es'.foldl prompterStep st).isCameraOn = true
        ∧ (es'.foldl prompterStep st).isScreenShareOn = true) := by
    intro es'
    induction es' with
    | nil => exact fun st h => h
    | cons e es' ih => exact fun st h => ih (prompterStep st e) (media_exclusive_step st e h)
  exact key es (initialPrompterState t0) (by simp [initialPrompterState])

/-- Claim C8: in every reachable state isCameraOn and isScreenShareOn are
never both true (toggling one on forces the other off first), and both
acquisition paths run the full teardown, stopping every track of an
existing capture handle and detaching the preview, strictly before they
acquire the new stream. -/
theorem media_mutual_exclusion (t0 : Int) (es : List PrompterEvent) :
    ¬((prompterRun t0 es).isCameraOn = true ∧ (prompterRun t0 es).isScreenShareOn = true) ∧
    (MediaAction.stopTracks ∈
        (startCameraActions true).takeWhile (fun a => a ≠ MediaAction.acquireStream) ∧
      MediaAction.detachPreview ∈
        (startCameraActions true).takeWhile (fun a => a ≠ MediaAction.acquireStream)) ∧
    (MediaAction.stopTracks ∈
        (startScreenShareActions true).takeWhile (fun a => a ≠ MediaAction.acquireStream) ∧
      MediaAction.detachPreview ∈
        (startScreenShareActions true).takeWhile (fun a => a ≠ MediaAction.acquireStream)) :=
  ⟨media_exclusive_run t0 es, ⟨by decide, by decide⟩, ⟨by decide, by decide⟩⟩

end Leggio
